import Mathlib

/-!
Verification of the single-page analysis engine of the website-crawler
repository (Go backend).  The definitions below are shallow embeddings of
the functions in `src/unnamed/part_008` (package `services`, the crawler),
`src/backend/models/website.go` (persistence of analysis results) and
`src/unnamed/part_006` (package `api`, the start/stop/bulk handlers).
External library behaviour (Go `net/url`, `net/http`, the HTML parser) is
modelled explicitly and marked as such; the network is an oracle parameter.
-/

/-! ## Parsed HTML documents

Model of the tree produced by `golang.org/x/net/html`.  A node is an
element (with tag, attributes and children), a text node, or any other
node kind (document, comment, doctype), which the crawler's traversals
never inspect beyond recursing into children.  Children are a sibling
chain, mirroring the `FirstChild`/`NextSibling` representation. -/

mutual
inductive HNode where
  | elem (tag : String) (attrs : List (String × String)) (children : HForest)
  | text (s : String)
  | other (children : HForest)
  deriving DecidableEq
inductive HForest where
  | nil
  | cons (head : HNode) (tail : HForest)
  deriving DecidableEq
end

/-! ## Title extraction (`extractTitle`, part_008 lines 146-165) -/

/-- First text-node child of a sibling chain, as scanned by the Go loop
`for child := n.FirstChild; ...` looking for `child.Type == TextNode`. -/
def firstText : HForest → Option String
  | .nil => none
  | .cons (.text s) _ => some s
  | .cons _ ts => firstText ts

mutual
/-- Embeds `extractTitleFunc` from `extractTitle`: the closure threads the
mutable `title` variable (`acc`).  On a `title` element with a text child
it assigns that child's data and returns without recursing into the
subtree; in every other case it recurses over the children.  The `return`
only exits the current recursive call, so the surrounding traversal
continues and a later `title` element overwrites an earlier match. -/
def extractTitleGo : HNode → String → String
  | .elem tag _ cs, acc =>
      if tag = "title" then
        match firstText cs with
        | some s => s
        | none => extractTitleGoList cs acc
      else extractTitleGoList cs acc
  | .text _, acc => acc
  | .other cs, acc => extractTitleGoList cs acc
/-- Traversal of a sibling chain, threading the `title` variable. -/
def extractTitleGoList : HForest → String → String
  | .nil, acc => acc
  | .cons t ts, acc => extractTitleGoList ts (extractTitleGo t acc)
end

/-- Embeds `extractTitle`: run the traversal with the zero value `""` of
the Go `title` variable. -/
def extractTitle (doc : HNode) : String := extractTitleGo doc ""

mutual
/-- Candidate titles in depth-first order: each `title` element having a
text-node child contributes its first text child (and its subtree is then
skipped, matching the early `return` in the Go code). -/
def titleCandidates : HNode → List String
  | .elem tag _ cs =>
      if tag = "title" then
        match firstText cs with
        | some s => [s]
        | none => titleCandidatesList cs
      else titleCandidatesList cs
  | .text _ => []
  | .other cs => titleCandidatesList cs
/-- Candidate titles of a sibling chain, in order. -/
def titleCandidatesList : HForest → List String
  | .nil => []
  | .cons t ts => titleCandidates t ++ titleCandidatesList ts
end

/-- Specification following the claim's words: the title is the FIRST
title element's first text-node child, the traversal stopping at the
first match; absence yields the empty string. -/
def firstTitleSpec (doc : HNode) : String := (titleCandidates doc).headD ""

/-- Specification of what the code actually computes: the LAST matching
title element wins, since later matches overwrite earlier ones. -/
def lastTitleSpec (doc : HNode) : String := (titleCandidates doc).getLastD ""

/-- Overwrite-fold of a list of candidates over an initial value: each
candidate replaces the current value, so the result is the last candidate,
or the initial value if there is none. -/
def lastD (l : List String) (d : String) : String := l.foldl (fun _ x => x) d

/-- Concrete document with two sibling `title` elements, each with a text
child. -/
def docTwoTitles : HNode :=
  .other (.cons (.elem "title" [] (.cons (.text "First") .nil))
          (.cons (.elem "title" [] (.cons (.text "Second") .nil)) .nil))

/-! ## Substring search and case folding

`strings.Contains` and the case-insensitive literal alternation of
`loginFormRegex` (part_008 line 19), modelled over character lists. -/

/-- Whether `pat` is a prefix of `hay` (character-by-character). -/
def leadsWith : List Char → List Char → Bool
  | _, [] => true
  | [], _ :: _ => false
  | c :: cs, d :: ds => c = d && leadsWith cs ds

/-- Whether `pat` occurs as a contiguous substring of `hay`; model of Go
`strings.Contains`. -/
def goContains (hay pat : List Char) : Bool :=
  match hay with
  | [] => leadsWith [] pat
  | c :: t => leadsWith (c :: t) pat || goContains t pat

/-- ASCII lower-casing of one character, modelling the `(?i)` flag of the
Go regexp on the ASCII literals it is applied to. -/
def toLowerAscii (c : Char) : Char :=
  if 65 ≤ c.toNat && c.toNat ≤ 90 then Char.ofNat (c.toNat + 32) else c

/-- Embeds `loginFormRegex.MatchString`: the regexp
`(?i)(login|sign in|signin)` matches iff the lower-cased content contains
one of the three literals. -/
def matchesLoginRegex (content : String) : Bool :=
  let lc := content.toList.map toLowerAscii
  goContains lc ("login".toList) || goContains lc ("sign in".toList) ||
    goContains lc ("signin".toList)

/-! ## Login-form detection (`detectLoginForm`, part_008 lines 316-347) -/

/-- The Go attribute loop of `checkFormsFunc`: scans the attributes for
`Key == "type" && Val == "password"`, breaking at the first hit. -/
def attrIsPassword (attrs : List (String × String)) : Bool :=
  attrs.any fun a => a.1 = "type" && a.2 = "password"

mutual
/-- Embeds `checkFormsFunc`, threading the mutable `hasPasswordField`
variable (`acc`): on an `input` element with a password `type` attribute
it sets the flag and returns; otherwise it recurses over the children. -/
def checkFormsGo : HNode → Bool → Bool
  | .elem tag attrs cs, acc =>
      if tag = "input" && attrIsPassword attrs then true
      else checkFormsGoList cs acc
  | .text _, acc => acc
  | .other cs, acc => checkFormsGoList cs acc
/-- Traversal of a sibling chain for `checkFormsFunc`. -/
def checkFormsGoList : HForest → Bool → Bool
  | .nil, acc => acc
  | .cons t ts, acc => checkFormsGoList ts (checkFormsGo t acc)
end

mutual
/-- Specification predicate: the tree contains at least one `input`
element whose `type` attribute equals `password`. -/
def hasPasswordInput : HNode → Bool
  | .elem tag attrs cs =>
      (tag = "input" && attrIsPassword attrs) || hasPasswordInputList cs
  | .text _ => false
  | .other cs => hasPasswordInputList cs
/-- Existence of a password input in a sibling chain. -/
def hasPasswordInputList : HForest → Bool
  | .nil => false
  | .cons t ts => hasPasswordInput t || hasPasswordInputList ts
end

/-- Embeds `detectLoginForm`: return true on a regexp match of the raw
markup, otherwise run the password-input traversal (flag initially
false). -/
def detectLoginForm (doc : HNode) (content : String) : Bool :=
  if matchesLoginRegex content then true else checkFormsGo doc false

/-- Concrete page with a password input and no login-related text. -/
def docPasswordOnly : HNode :=
  .other (.cons (.elem "form" []
    (.cons (.elem "input" [("type", "password")] .nil) .nil)) .nil)

/-- Concrete page with neither signal. -/
def docNoLogin : HNode :=
  .other (.cons (.elem "p" [] (.cons (.text "hello world") .nil)) .nil)

/-! ## HTML version detection (`detectHTMLVersion`, part_008 lines 126-144)

The regexp `htmlVersionRegex` (line 18) is the case-sensitive pattern
`<!DOCTYPE\s+html[^>]*>`; `FindStringSubmatch` yields the leftmost match. -/

/-- Whitespace class of the Go regexp `\s` (RE2): tab, newline, form
feed, carriage return, space. -/
def goSpace (c : Char) : Bool :=
  c = ' ' || c = '\t' || c = '\n' || c = '\r' || c = '\x0c'

/-- Strip the literal prefix `pat` from `cs`, or fail. -/
def stripLead : List Char → List Char → Option (List Char)
  | cs, [] => some cs
  | [], _ :: _ => none
  | c :: cs, d :: ds => if c = d then stripLead cs ds else none

/-- Match `[^>]*>` at the front of `cs`, returning the consumed text:
everything up to and including the first `>`. -/
def matchToGt (cs : List Char) : Option (List Char) :=
  match cs.dropWhile (fun c => !(c = '>')) with
  | c :: _ => if c = '>' then some (cs.takeWhile (fun d => !(d = '>')) ++ [c]) else none
  | [] => none

/-- Match the doctype pattern `<!DOCTYPE\s+html[^>]*>` at the start of
`cs`, returning the matched text. -/
def matchDoctypeAt (cs : List Char) : Option (List Char) :=
  match stripLead cs ("<!DOCTYPE".toList) with
  | none => none
  | some r1 =>
      let sp := r1.takeWhile goSpace
      if sp.isEmpty then none
      else
        match stripLead (r1.dropWhile goSpace) ("html".toList) with
        | none => none
        | some r2 =>
            match matchToGt r2 with
            | none => none
            | some tk => some (("<!DOCTYPE".toList) ++ sp ++ ("html".toList) ++ tk)

/-- Leftmost match of the doctype pattern anywhere in the content; model
of `htmlVersionRegex.FindStringSubmatch` returning the whole match. -/
def findDoctype : List Char → Option (List Char)
  | [] => none
  | c :: cs =>
      match matchDoctypeAt (c :: cs) with
      | some m => some m
      | none => findDoctype cs

/-- Embeds `detectHTMLVersion`: on a regexp match, test the matched
doctype text for known version substrings; anything else is Unknown. -/
def detectHTMLVersion (content : String) : String :=
  match findDoctype content.toList with
  | some d =>
      if goContains d ("HTML 4.01".toList) then "HTML 4.01"
      else if goContains d ("XHTML 1.0".toList) then "XHTML 1.0"
      else if goContains d ("XHTML 1.1".toList) then "XHTML 1.1"
      else if goContains d ("html".toList) && !(goContains d ("DTD".toList)) then "HTML5"
      else "Unknown"
  | none => "Unknown"

/-! ## URLs (`resolveURL` / `isInternalLink`, part_008 lines 258-283) -/

/-- The fields of Go `net/url.URL` that the crawler reads. -/
structure GoURL where
  scheme : String
  host : String
  path : String
  deriving DecidableEq

/-- Split a character list at the first occurrence of `sep`, returning
the parts before and after the separator, or fail when `sep` does not
occur. -/
def breakOnSub : List Char → List Char → Option (List Char × List Char)
  | cs, sep =>
      match stripLead cs sep with
      | some rest => some ([], rest)
      | none =>
          match cs with
          | [] => none
          | c :: t =>
              match breakOnSub t sep with
              | some (pre, post) => some (c :: pre, post)
              | none => none

/-- Modelled behaviour of the external Go `net/url.Parse`: fails on a
space character; a string containing `://` splits into scheme, host (up
to the first slash) and path; anything else parses as a relative URL
(empty scheme and host). -/
def parseURL (s : String) : Option GoURL :=
  let cs := s.toList
  if cs.any (fun c => c = ' ') then none
  else
    match breakOnSub cs ("://".toList) with
    | none => some { scheme := "", host := "", path := s }
    | some (scheme, rest) =>
        some { scheme := String.mk scheme,
               host := String.mk (rest.takeWhile fun c => !(c = '/')),
               path := String.mk (rest.dropWhile fun c => !(c = '/')) }

/-- Leading directory of a path (up to and including the last slash);
used by the reference-resolution model. -/
def dirOf (p : String) : String :=
  match (p.toList.reverse.dropWhile (fun c => !(c = '/'))).reverse with
  | [] => "/"
  | l => String.mk l

/-- Modelled behaviour of the external Go `URL.ResolveReference`: an
absolute reference is returned as is; otherwise scheme (and, for
host-less references, host) are inherited from the base, and a relative
path is merged against the base path. -/
def resolveReference (base ref : GoURL) : GoURL :=
  if !(ref.scheme = "") then ref
  else if !(ref.host = "") then { ref with scheme := base.scheme }
  else if leadsWith ref.path.toList ("/".toList) then
    { scheme := base.scheme, host := base.host, path := ref.path }
  else
    { scheme := base.scheme, host := base.host, path := dirOf base.path ++ ref.path }

/-- Embeds `resolveURL`: reject empty hrefs, bare `#` and
`javascript:` pseudo-links; parse; return absolute URLs unchanged;
resolve relative URLs against the base. -/
def resolveURL (base : GoURL) (href : String) : Option GoURL :=
  if href = "" || href = "#" || leadsWith href.toList ("javascript:".toList) then none
  else
    match parseURL href with
    | none => none
    | some u => if !(u.scheme = "") then some u else some (resolveReference base u)

/-- Embeds `isInternalLink`: internal iff the host is empty or equals the
base host. -/
def isInternalLink (base : GoURL) (u : GoURL) : Bool :=
  u.host = "" || u.host = base.host

/-- Modelled behaviour of the external Go `URL.String` for the URL shapes
the crawler produces. -/
def urlString (u : GoURL) : String :=
  if u.scheme = "" then u.path else u.scheme ++ "://" ++ u.host ++ u.path

/-! ## Link extraction and health checking
(`extractLinks` / `checkLinkAccessibility`, part_008 lines 195-314) -/

/-- The Go attribute loop of `extractLinksFunc`: the first `href`
attribute of an anchor, breaking at the first hit. -/
def firstHref (attrs : List (String × String)) : Option String :=
  (attrs.find? fun a => a.1 = "href").map fun a => a.2

mutual
/-- Embeds `extractLinksFunc`: collect, in document order, the first
`href` attribute of every anchor element, recursing into all children. -/
def findHrefs : HNode → List String
  | .elem tag attrs cs =>
      (if tag = "a" then
        (match firstHref attrs with | some h => [h] | none => [])
       else []) ++ findHrefsList cs
  | .text _ => []
  | .other cs => findHrefsList cs
/-- Hrefs of a sibling chain, in order. -/
def findHrefsList : HForest → List String
  | .nil => []
  | .cons t ts => findHrefs t ++ findHrefsList ts
end

/-- Outcome of one network probe, the oracle abstracting the HTTP
transport: either a transport-level failure (request construction error,
connect/timeout/redirect-loop failure) or a response status code. -/
inductive ProbeResult where
  | transportFail
  | status (code : Nat)
  deriving DecidableEq

/-- Embeds `checkLinkAccessibility`: a transport failure returns the
pair (0, error); a response returns (its status code, no error). -/
def checkLinkAccessibility (probe : String → ProbeResult) (link : String) :
    Nat × Bool :=
  match probe link with
  | .transportFail => (0, true)
  | .status code => (code, false)

/-- One broken-link record (`models.BrokenLink`): URL and status code. -/
structure BrokenRec where
  url : String
  statusCode : Nat
  deriving DecidableEq

/-- The link-related state `extractLinks` accumulates: the two counters
of `models.LinkCounts` and the broken-link list.  The Go code guards all
three with `c.mutex`, so concurrent probe completions only permute the
order in which records are appended; this sequential embedding fixes
document order. -/
structure LinkStats where
  internal : Nat
  external : Nat
  broken : List BrokenRec
  deriving DecidableEq

/-- Embeds one iteration of the link loop of `extractLinks`: resolution
failure skips the link entirely; a resolved link increments exactly one
of the two counters by the internal/external test, is probed, and is
appended to the broken list iff the probe errors or reports a status of
at least 400. -/
def processLink (base : GoURL) (probe : String → ProbeResult)
    (st : LinkStats) (href : String) : LinkStats :=
  match resolveURL base href with
  | none => st
  | some u =>
      let st1 := if isInternalLink base u then
                   { st with internal := st.internal + 1 }
                 else { st with external := st.external + 1 }
      let s := urlString u
      let r := checkLinkAccessibility probe s
      if r.2 || 400 ≤ r.1 then
        { st1 with broken := st1.broken ++ [{ url := s, statusCode := r.1 }] }
      else st1

/-- Embeds the link loop of `extractLinks` over a list of hrefs, starting
from the freshly initialised counters of `Crawl` (lines 96-99). -/
def extractLinksRun (base : GoURL) (probe : String → ProbeResult)
    (hrefs : List String) : LinkStats :=
  hrefs.foldl (processLink base probe) { internal := 0, external := 0, broken := [] }

/-- Embeds `extractLinks` on a document: collect hrefs, then run the link
loop. -/
def crawlLinks (base : GoURL) (probe : String → ProbeResult) (doc : HNode) :
    LinkStats :=
  extractLinksRun base probe (findHrefs doc)

/-- Specification of the recording condition of one probed link: a
record with the sentinel 0 on transport failure, a record with the
status code when it is at least 400, and no record otherwise. -/
def brokenOf (probe : String → ProbeResult) (u : GoURL) : Option BrokenRec :=
  match probe (urlString u) with
  | .transportFail => some { url := urlString u, statusCode := 0 }
  | .status c => if 400 ≤ c then some { url := urlString u, statusCode := c } else none

/-- An href that resolves successfully. -/
def hrefResolves (base : GoURL) (h : String) : Bool := (resolveURL base h).isSome

/-- An href that resolves to an internal link. -/
def hrefInternal (base : GoURL) (h : String) : Bool :=
  match resolveURL base h with
  | some u => isInternalLink base u
  | none => false

/-- An href that resolves to an external link. -/
def hrefExternal (base : GoURL) (h : String) : Bool :=
  match resolveURL base h with
  | some u => !(isInternalLink base u)
  | none => false

/-- The successfully resolved links of an href list, in document order. -/
def resolvedURLs (base : GoURL) (hrefs : List String) : List GoURL :=
  hrefs.filterMap (resolveURL base)

/-- Base URL of the worked example: the analyzed page
`https://example.com`. -/
def baseEx : GoURL := { scheme := "https", host := "example.com", path := "" }

/-- Probe oracle of the worked example: `https://other.com` answers 404,
everything else answers 200. -/
def probeEx : String → ProbeResult := fun s =>
  if s = "https://other.com" then ProbeResult.status 404 else ProbeResult.status 200

/-- Document of the worked example: two anchors to `/about` and one to
`https://other.com`. -/
def docEx : HNode :=
  .other (.cons (.elem "a" [("href", "/about")] .nil)
    (.cons (.elem "a" [("href", "/about")] .nil)
      (.cons (.elem "a" [("href", "https://other.com")] .nil) .nil)))

/-! ## Persistence of broken links
(`UpdateWebsiteData`, website.go lines 202-270) -/

/-- Embeds the broken-links portion of `UpdateWebsiteData` (lines
246-262): only when the new list is non-empty does the transaction delete
the stored rows of the target and insert the new ones; otherwise the
stored rows are left untouched. -/
def updateBrokenLinksDB (stored newRecs : List BrokenRec) : List BrokenRec :=
  if 0 < newRecs.length then newRecs else stored

/-! ## Status lifecycle (`UpdateWebsiteStatus`, website.go lines 193-200;
`Crawl`, part_008 lines 56-124; handlers, part_006) -/

/-- The status enumeration of a website record. -/
inductive WStatus where
  | queued
  | running
  | done
  | error
  deriving DecidableEq

/-- Observable state of one target: status, error message, and the
number of crawl jobs still executing for it (goroutines whose final
writes are pending). -/
structure WState where
  status : WStatus
  errorMessage : String
  inFlight : Nat
  deriving DecidableEq

/-- The operations the lifecycle claims quantify over. -/
inductive WOp where
  | start
  | complete
  | fail (msg : String)
  | stop
  deriving DecidableEq

/-- Embeds the effect of each operation on a target's stored row.
`start` (handler `StartAnalysis` / `Crawl` line 58) is rejected while
running, else writes (running, "") and launches a job.  `complete`
(`Crawl` lines 114-121 via `UpdateWebsiteData`) writes the done status
but does not touch the stored error message, since the SQL UPDATE lists
only title, html_version, status and updated_at.  `fail` (the error
paths of `Crawl`) writes (error, msg).  `stop` (handler `StopAnalysis`)
requires running and writes (error, "Analysis stopped by user") without
halting the in-flight job. -/
def applyOp (s : WState) : WOp → WState
  | .start =>
      if s.status = .running then s
      else { status := .running, errorMessage := "", inFlight := s.inFlight + 1 }
  | .complete =>
      if s.inFlight = 0 then s
      else { status := .done, errorMessage := s.errorMessage,
             inFlight := s.inFlight - 1 }
  | .fail msg =>
      if s.inFlight = 0 then s
      else { status := .error, errorMessage := msg, inFlight := s.inFlight - 1 }
  | .stop =>
      if s.status = .running then
        { status := .error, errorMessage := "Analysis stopped by user",
          inFlight := s.inFlight }
      else s

/-- A freshly created website record (`CreateWebsite`): queued, no error
message, no job. -/
def initWState : WState := { status := .queued, errorMessage := "", inFlight := 0 }

/-- Run a sequence of lifecycle operations from the initial state. -/
def runOps (ops : List WOp) : WState := ops.foldl applyOp initWState

/-- Every crawl-failure message in the list is non-empty; all failure
messages the Go code produces are non-empty `fmt.Sprintf` strings. -/
def failMsgsOK : List WOp → Bool
  | [] => true
  | .fail m :: t => !(m = "") && failMsgsOK t
  | _ :: t => failMsgsOK t

/-- Invariant: an error status carries a non-empty message. -/
def errMsgSet (s : WState) : Prop := s.status = .error → ¬ s.errorMessage = ""

/-- Inductive invariant for stop-free runs: the message is non-empty
exactly on error, any in-flight job implies a running status with a
clean message, and at most one job is in flight. -/
def noStopInv (s : WState) : Prop :=
  (s.status = .error ↔ ¬ s.errorMessage = "") ∧
    (¬ s.inFlight = 0 → s.status = .running ∧ s.errorMessage = "") ∧
    s.inFlight ≤ 1

/-! ## Start / bulk-start handlers (part_006 lines 206-268 and 402-460) -/

/-- A stored website row as the start handlers read it. -/
structure WTarget where
  userID : Nat
  url : String
  status : WStatus
  deriving DecidableEq

/-- Outcome of the single-target `StartAnalysis` handler. -/
inductive StartOutcome where
  | notFound
  | forbidden
  | conflict
  | serverFailure
  | launched
  deriving DecidableEq

/-- Embeds `StartAnalysis`: look up the target (404 if absent), check
ownership (403), reject an already-running target (409 conflict, no job
launched), fail if `NewCrawler` cannot parse the URL (500), otherwise
launch the job. -/
def startAnalysis (db : Nat → Option WTarget) (uid id : Nat) : StartOutcome :=
  match db id with
  | none => .notFound
  | some w =>
      if !(w.userID = uid) then .forbidden
      else if w.status = .running then .conflict
      else
        match parseURL w.url with
        | none => .serverFailure
        | some _ => .launched

/-- Embeds the loop of `BulkStartAnalysis`, returning the ids for which a
job is launched, in order: a missing target, a target of another user, a
running target, and a target whose URL fails to parse are each silently
skipped. -/
def bulkStartAnalysis (db : Nat → Option WTarget) (uid : Nat) :
    List Nat → List Nat
  | [] => []
  | id :: rest =>
      match db id with
      | none => bulkStartAnalysis db uid rest
      | some w =>
          if !(w.userID = uid) then bulkStartAnalysis db uid rest
          else if w.status = .running then bulkStartAnalysis db uid rest
          else if (parseURL w.url).isSome then id :: bulkStartAnalysis db uid rest
          else bulkStartAnalysis db uid rest

/-- Specification following the claim's words: a bulk start skips only
targets that are not found or already running, and launches a job for
every remaining target. -/
def claimBulkLaunches (db : Nat → Option WTarget) (ids : List Nat) : List Nat :=
  ids.filter fun id =>
    match db id with
    | none => false
    | some w => !(w.status = .running)

/-- One-row database: target 1 exists, is queued with a valid URL, and
belongs to user 2. -/
def dbOtherUser : Nat → Option WTarget := fun id =>
  if id = 1 then some { userID := 2, url := "https://a.com", status := .queued }
  else none

/-- One-row database: target 1 belongs to user 1 and is running. -/
def dbRunning : Nat → Option WTarget := fun id =>
  if id = 1 then some { userID := 1, url := "https://a.com", status := .running }
  else none

/-! ## Probe concurrency (`extractLinks`, part_008 lines 213-255)

Each link spawns a goroutine that sends on the buffered channel
`semaphore := make(chan struct{}, 10)` before probing and receives from
it afterwards.  A send on a buffered channel blocks exactly while the
buffer is full, so the buffer occupancy equals the number of probes in
flight. -/

/-- Phase of one probe goroutine: blocked on the semaphore send, holding
a slot with the probe in flight, or finished after releasing the slot. -/
inductive ProbePhase where
  | waiting
  | probing
  | finished
  deriving DecidableEq

/-- Number of probes in flight: goroutines holding a semaphore slot. -/
def inFlightProbes (gs : List ProbePhase) : Nat :=
  gs.countP fun p => match p with | .probing => true | _ => false

/-- One scheduler step of the probe pool.  `acquire`: a waiting goroutine
completes its send, enabled only while the 10-slot buffer is not full.
`release`: a probing goroutine finishes its probe and receives a token
back. -/
inductive SemStep : List ProbePhase → List ProbePhase → Prop where
  | acquire (pre post : List ProbePhase) :
      inFlightProbes (pre ++ ProbePhase.waiting :: post) < 10 →
      SemStep (pre ++ ProbePhase.waiting :: post) (pre ++ ProbePhase.probing :: post)
  | release (pre post : List ProbePhase) :
      SemStep (pre ++ ProbePhase.probing :: post) (pre ++ ProbePhase.finished :: post)

/-- States reachable from a given start state of the probe pool. -/
inductive SemReachable (init : List ProbePhase) : List ProbePhase → Prop where
  | refl : SemReachable init init
  | step {s t : List ProbePhase} :
      SemReachable init s → SemStep s t → SemReachable init t

/-! # Theorems -/

/-! ## Helper lemmas: title traversal -/

theorem lastD_append (a b : List String) (d : String) :
    lastD (a ++ b) d = lastD b (lastD a d) := by
  simp [lastD, List.foldl_append]

theorem lastD_eq_getLastD (l : List String) : ∀ d : String, lastD l d = l.getLastD d := by
  induction l with
  | nil => intro d; rfl
  | cons a l ih =>
      intro d
      have h1 : lastD (a :: l) d = lastD l a := rfl
      rw [h1, ih a, List.getLastD_cons]

mutual
theorem extractTitleGo_eq : ∀ (t : HNode) (acc : String),
    extractTitleGo t acc = lastD (titleCandidates t) acc
  | .elem tag attrs cs, acc => by
      simp only [extractTitleGo, titleCandidates]
      split
      · cases h : firstText cs with
        | some s => simp [lastD]
        | none => simpa using extractTitleGoList_eq cs acc
      · exact extractTitleGoList_eq cs acc
  | .text s, acc => by simp [extractTitleGo, titleCandidates, lastD]
  | .other cs, acc => by
      simpa [extractTitleGo, titleCandidates] using extractTitleGoList_eq cs acc
theorem extractTitleGoList_eq : ∀ (ts : HForest) (acc : String),
    extractTitleGoList ts acc = lastD (titleCandidatesList ts) acc
  | .nil, acc => by simp [extractTitleGoList, titleCandidatesList, lastD]
  | .cons t ts, acc => by
      rw [extractTitleGoList, titleCandidatesList, lastD_append,
        ← extractTitleGo_eq t acc, extractTitleGoList_eq ts]
end

/-! ## Helper lemmas: login-form traversal -/

mutual
theorem checkFormsGo_eq : ∀ (t : HNode) (acc : Bool),
    checkFormsGo t acc = (acc || hasPasswordInput t)
  | .elem tag attrs cs, acc => by
      simp only [checkFormsGo, hasPasswordInput]
      split
      · next h => simp [h]
      · next h =>
          rw [checkFormsGoList_eq cs acc]
          simp only [Bool.not_eq_true] at h
          simp [h]
  | .text s, acc => by simp [checkFormsGo, hasPasswordInput]
  | .other cs, acc => by
      simpa [checkFormsGo, hasPasswordInput] using checkFormsGoList_eq cs acc
theorem checkFormsGoList_eq : ∀ (ts : HForest) (acc : Bool),
    checkFormsGoList ts acc = (acc || hasPasswordInputList ts)
  | .nil, acc => by simp [checkFormsGoList, hasPasswordInputList]
  | .cons t ts, acc => by
      rw [checkFormsGoList, checkFormsGoList_eq ts, checkFormsGo_eq t acc,
        hasPasswordInputList, Bool.or_assoc]
end

/-! ## Helper lemmas: substring structure of doctype matches -/

theorem leadsWith_append (pat rest : List Char) : leadsWith (pat ++ rest) pat = true := by
  induction pat with
  | nil => cases rest <;> rfl
  | cons c cs ih => simp [leadsWith, ih]

theorem goContains_of_leadsWith (b p : List Char) (h : leadsWith b p = true) :
    goContains b p = true := by
  cases b with
  | nil => simpa [goContains] using h
  | cons c t => simp [goContains, h]

theorem goContains_append_right (a b p : List Char) (h : goContains b p = true) :
    goContains (a ++ b) p = true := by
  induction a with
  | nil => simpa using h
  | cons c t ih => simp [goContains, ih]

theorem matchDoctypeAt_shape (cs d : List Char) (h : matchDoctypeAt cs = some d) :
    leadsWith d ("<!DOCTYPE".toList) = true ∧ goContains d ("html".toList) = true := by
  unfold matchDoctypeAt at h
  cases h1 : stripLead cs ("<!DOCTYPE".toList) with
  | none => rw [h1] at h; exact absurd h (by simp)
  | some r1 =>
      rw [h1] at h
      simp only at h
      split at h
      · exact absurd h (by simp)
      · cases h2 : stripLead (r1.dropWhile goSpace) ("html".toList) with
        | none => rw [h2] at h; exact absurd h (by simp)
        | some r2 =>
            rw [h2] at h
            simp only at h
            cases h3 : matchToGt r2 with
            | none => rw [h3] at h; exact absurd h (by simp)
            | some tk =>
                rw [h3] at h
                simp only [Option.some.injEq] at h
                subst h
                constructor
                · simp only [List.append_assoc]
                  exact leadsWith_append _ _
                · simp only [List.append_assoc]
                  apply goContains_append_right
                  apply goContains_append_right
                  exact goContains_of_leadsWith _ _ (leadsWith_append _ _)

/-- Claim C1: the code at the failing input.  After a rerun that finds no
broken links, the broken-links update of `UpdateWebsiteData` leaves the
previously stored record in place instead of deleting it: the stored set
does not equal the rerun's (empty) findings. -/
theorem c1_code_bug_eval :
    updateBrokenLinksDB [{ url := "https://other.com", statusCode := 404 }] [] =
      [{ url := "https://other.com", statusCode := 404 }] ∧
    ¬ updateBrokenLinksDB [{ url := "https://other.com", statusCode := 404 }] [] = [] := by
  decide

/-- Claim C5, counterexample: on a document with two title elements the
extracted title is the second one — the traversal does not stop at the
first match, refuting the claim that the first title element wins. -/
theorem c5_counterexample :
    extractTitle docTwoTitles = "Second" ∧ firstTitleSpec docTwoTitles = "First" ∧
      ¬ extractTitle docTwoTitles = firstTitleSpec docTwoTitles := by
  decide

/-- Claim C5, amended: the extracted title is the first text-node child
of the LAST title element (among those having a text-node child, skipping
nested ones inside a matched title) in depth-first order; if no title
element with a text-node child exists, the title is the empty string. -/
theorem c5_amended (doc : HNode) : extractTitle doc = lastTitleSpec doc := by
  rw [extractTitle, extractTitleGo_eq, lastTitleSpec, lastD_eq_getLastD]

/-- Claim C7: the login-form flag is true iff the raw markup matches the
case-insensitive login/sign in/signin test or the tree contains an input
element whose type attribute equals password; in particular a page with
only a password input is flagged true and a page with neither signal is
flagged false. -/
theorem c7_login_form :
    (∀ (doc : HNode) (content : String),
      detectLoginForm doc content = (matchesLoginRegex content || hasPasswordInput doc)) ∧
    detectLoginForm docPasswordOnly "<html><body>plain page</body></html>" = true ∧
    detectLoginForm docNoLogin "<html><body>hello</body></html>" = false := by
  refine ⟨fun doc content => ?_, by decide, by decide⟩
  unfold detectLoginForm
  cases h : matchesLoginRegex content with
  | true => simp
  | false => simp [checkFormsGo_eq doc false]

/-- Claim C6, counterexample: the standard HTML 4.01 doctype spells HTML
in upper case, so the case-sensitive pattern does not match it; although
the doctype contains the substring HTML 4.01, detection yields Unknown
rather than HTML 4.01. -/
theorem c6_counterexample :
    goContains ("<!DOCTYPE HTML PUBLIC \"-//W3C//DTD HTML 4.01//EN\">".toList)
      ("HTML 4.01".toList) = true ∧
    detectHTMLVersion "<!DOCTYPE HTML PUBLIC \"-//W3C//DTD HTML 4.01//EN\">" = "Unknown" ∧
    ¬ detectHTMLVersion "<!DOCTYPE HTML PUBLIC \"-//W3C//DTD HTML 4.01//EN\">" = "HTML 4.01" := by
  decide

/-- Claim C6, amended: detection maps `<!DOCTYPE html>` to HTML5 and a
doctype matched by the case-sensitive pattern (lower-case `html`) that
contains HTML 4.01 to HTML 4.01; markup in which the pattern finds no
doctype yields Unknown, and a matched doctype satisfying none of the
version tests yields Unknown. -/
theorem c6_amended :
    detectHTMLVersion "<!DOCTYPE html>" = "HTML5" ∧
    detectHTMLVersion "<!DOCTYPE html PUBLIC \"-//W3C//DTD HTML 4.01//EN\">" = "HTML 4.01" ∧
    (∀ content : String, findDoctype content.toList = none →
      detectHTMLVersion content = "Unknown") ∧
    (∀ (content : String) (d : List Char), findDoctype content.toList = some d →
      goContains d ("HTML 4.01".toList) = false →
      goContains d ("XHTML 1.0".toList) = false →
      goContains d ("XHTML 1.1".toList) = false →
      (goContains d ("html".toList) && !(goContains d ("DTD".toList))) = false →
      detectHTMLVersion content = "Unknown") := by
  refine ⟨by decide, by decide, fun content h => ?_, fun content d h h1 h2 h3 h4 => ?_⟩
  · unfold detectHTMLVersion
    rw [h]
  · unfold detectHTMLVersion
    rw [h]
    show (if goContains d ("HTML 4.01".toList) = true then "HTML 4.01"
      else if goContains d ("XHTML 1.0".toList) = true then "XHTML 1.0"
      else if goContains d ("XHTML 1.1".toList) = true then "XHTML 1.1"
      else if (goContains d ("html".toList) && !(goContains d ("DTD".toList))) = true
        then "HTML5"
      else "Unknown") = "Unknown"
    rw [h1, h2, h3, h4]
    simp

/-- Claim C6, amended, witness: markup without any doctype yields
Unknown. -/
theorem c6_amended_witness :
    findDoctype ("plain text".toList) = none ∧ detectHTMLVersion "plain text" = "Unknown" :=
  ⟨by decide, c6_amended.2.2.1 "plain text" (by decide)⟩

/-- Claim C10: doctype recognition is case-sensitive.  The lower-case
`<!doctype html>` and the upper-case HTML 4.01 doctype both fail the
pattern and yield Unknown; every matched doctype starts with the literal
upper-case `<!DOCTYPE` and contains the literal lower-case `html`; and on
markup in which the pattern finds no doctype, detection yields Unknown. -/
theorem c10_case_sensitive :
    detectHTMLVersion "<!doctype html>" = "Unknown" ∧
    detectHTMLVersion "<!DOCTYPE HTML PUBLIC \"-//W3C//DTD HTML 4.01//EN\">" = "Unknown" ∧
    (∀ cs d : List Char, matchDoctypeAt cs = some d →
      leadsWith d ("<!DOCTYPE".toList) = true ∧ goContains d ("html".toList) = true) ∧
    (∀ content : String, findDoctype content.toList = none →
      detectHTMLVersion content = "Unknown") := by
  refine ⟨by decide, by decide, matchDoctypeAt_shape, fun content h => ?_⟩
  unfold detectHTMLVersion
  rw [h]

/-- Claim C10, witness: the lower-case doctype is not found by the
pattern, and detection on that markup yields Unknown. -/
theorem c10_case_sensitive_witness :
    findDoctype ("<!doctype html>".toList) = none ∧
      detectHTMLVersion "<!doctype html>" = "Unknown" :=
  ⟨by decide, c10_case_sensitive.2.2.2 "<!doctype html>" (by decide)⟩

/-! ## Helper lemmas: the link loop -/

theorem processLink_spec (base : GoURL) (probe : String → ProbeResult)
    (st : LinkStats) (h : String) :
    processLink base probe st h =
      { internal := st.internal + (if hrefInternal base h then 1 else 0),
        external := st.external + (if hrefExternal base h then 1 else 0),
        broken := st.broken ++ (match resolveURL base h with
          | none => []
          | some u => (brokenOf probe u).toList) } := by
  unfold processLink hrefInternal hrefExternal brokenOf checkLinkAccessibility
  cases hres : resolveURL base h with
  | none => simp
  | some u =>
      cases hpr : probe (urlString u) with
      | transportFail =>
          cases hint : isInternalLink base u <;> simp [hint, hpr]
      | status c =>
          cases hint : isInternalLink base u <;> by_cases hc : 400 ≤ c <;>
            simp [hint, hpr, hc]

theorem extractLinksFold_spec (base : GoURL) (probe : String → ProbeResult) :
    ∀ (hrefs : List String) (st : LinkStats),
    hrefs.foldl (processLink base probe) st =
      { internal := st.internal + hrefs.countP (hrefInternal base),
        external := st.external + hrefs.countP (hrefExternal base),
        broken := st.broken ++ (resolvedURLs base hrefs).filterMap (brokenOf probe) } := by
  intro hrefs
  induction hrefs with
  | nil => intro st; simp [resolvedURLs]
  | cons h t ih =>
      intro st
      rw [List.foldl_cons, ih, processLink_spec]
      simp only [List.countP_cons, resolvedURLs, List.filterMap_cons]
      cases hres : resolveURL base h with
      | none =>
          simp only [hrefInternal, hrefExternal, hres]
          simp [resolvedURLs]
      | some u =>
          simp only [hrefInternal, hrefExternal, hres]
          cases hbr : brokenOf probe u with
          | none =>
              cases hint : isInternalLink base u <;>
                simp [hint, resolvedURLs, hbr] <;> omega
          | some r =>
              cases hint : isInternalLink base u <;>
                simp [hint, resolvedURLs, hbr] <;> omega

theorem countP_internal_add_external (base : GoURL) (hrefs : List String) :
    hrefs.countP (hrefInternal base) + hrefs.countP (hrefExternal base) =
      hrefs.countP (hrefResolves base) := by
  induction hrefs with
  | nil => rfl
  | cons h t ih =>
      simp only [List.countP_cons]
      cases hres : resolveURL base h with
      | none =>
          simp only [hrefInternal, hrefExternal, hrefResolves, hres]
          simpa using ih
      | some u =>
          simp only [hrefInternal, hrefExternal, hrefResolves, hres]
          cases hint : isInternalLink base u <;> simp [hint] <;> omega

theorem length_resolvedURLs (base : GoURL) (hrefs : List String) :
    (resolvedURLs base hrefs).length = hrefs.countP (hrefResolves base) := by
  induction hrefs with
  | nil => rfl
  | cons h t ih =>
      simp only [resolvedURLs, List.filterMap_cons, List.countP_cons] at ih ⊢
      cases hres : resolveURL base h with
      | none => simp [hrefResolves, hres, ih]
      | some u => simp [hrefResolves, hres, ih]

/-- Claim C3: after a run, internal plus external equals the number of
hrefs (in document order, duplicates counted separately) that resolve
successfully; the internal counter counts exactly the resolved internal
hrefs and the external counter exactly the resolved external ones, so
each resolved href increments exactly one counter and a failed
resolution increments neither. -/
theorem c3_link_count_sum (base : GoURL) (probe : String → ProbeResult) (doc : HNode) :
    (crawlLinks base probe doc).internal + (crawlLinks base probe doc).external =
      (findHrefs doc).countP (hrefResolves base) ∧
    (crawlLinks base probe doc).internal = (findHrefs doc).countP (hrefInternal base) ∧
    (crawlLinks base probe doc).external = (findHrefs doc).countP (hrefExternal base) := by
  unfold crawlLinks extractLinksRun
  rw [extractLinksFold_spec]
  refine ⟨?_, by simp, by simp⟩
  simpa using countP_internal_add_external base (findHrefs doc)

/-- Claim C4: the broken-link records are exactly the resolved links
whose probe failed at transport level or returned a status of at least
400; every recorded status code is the transport sentinel 0 or at least
400, with 0 occurring exactly on transport failures; and the number of
records never exceeds internal plus external. -/
theorem c4_broken_links (base : GoURL) (probe : String → ProbeResult) (doc : HNode) :
    (crawlLinks base probe doc).broken =
      (resolvedURLs base (findHrefs doc)).filterMap (brokenOf probe) ∧
    (∀ r : BrokenRec, r ∈ (crawlLinks base probe doc).broken →
      (r.statusCode = 0 ∧ probe r.url = ProbeResult.transportFail) ∨
        (400 ≤ r.statusCode ∧ probe r.url = ProbeResult.status r.statusCode)) ∧
    (crawlLinks base probe doc).broken.length ≤
      (crawlLinks base probe doc).internal + (crawlLinks base probe doc).external := by
  have hchar : (crawlLinks base probe doc).broken =
      (resolvedURLs base (findHrefs doc)).filterMap (brokenOf probe) := by
    unfold crawlLinks extractLinksRun
    rw [extractLinksFold_spec]
    simp
  refine ⟨hchar, fun r hr => ?_, ?_⟩
  · rw [hchar] at hr
    rcases List.mem_filterMap.mp hr with ⟨u, _, hu⟩
    unfold brokenOf at hu
    cases hpr : probe (urlString u) with
    | transportFail =>
        simp only [hpr] at hu
        simp only [Option.some.injEq] at hu
        subst hu
        exact Or.inl ⟨rfl, hpr⟩
    | status c =>
        simp only [hpr] at hu
        by_cases hc : 400 ≤ c
        · simp only [if_pos hc, Option.some.injEq] at hu
          subst hu
          exact Or.inr ⟨hc, hpr⟩
        · simp [if_neg hc] at hu
  · rw [hchar]
    calc ((resolvedURLs base (findHrefs doc)).filterMap (brokenOf probe)).length
        ≤ (resolvedURLs base (findHrefs doc)).length := List.length_filterMap_le _ _
      _ = (findHrefs doc).countP (hrefResolves base) := length_resolvedURLs _ _
      _ = (crawlLinks base probe doc).internal + (crawlLinks base probe doc).external := by
          unfold crawlLinks extractLinksRun
          rw [extractLinksFold_spec]
          simpa using (countP_internal_add_external base (findHrefs doc)).symm

/-- Claim C4, witness: in the worked example the record for
`https://other.com` is present and carries status 404, which satisfies
the status-code disjunction. -/
theorem c4_broken_links_witness :
    ({ url := "https://other.com", statusCode := 404 } : BrokenRec) ∈
      (crawlLinks baseEx probeEx docEx).broken ∧
    ((404 : Nat) = 0 ∧ probeEx "https://other.com" = ProbeResult.transportFail ∨
      400 ≤ (404 : Nat) ∧ probeEx "https://other.com" = ProbeResult.status 404) :=
  ⟨by decide, (c4_broken_links baseEx probeEx docEx).2.1
    { url := "https://other.com", statusCode := 404 } (by decide)⟩

/-! ## Helper lemmas: status lifecycle -/

theorem failMsgsOK_cons (op : WOp) (t : List WOp) (h : failMsgsOK (op :: t) = true) :
    failMsgsOK t = true ∧ ∀ m : String, op = WOp.fail m → ¬ m = "" := by
  cases op with
  | fail m =>
      simp only [failMsgsOK, Bool.and_eq_true] at h
      refine ⟨h.2, fun m2 hm2 => ?_⟩
      cases hm2
      simpa using h.1
  | start => exact ⟨h, by intro m hm; cases hm⟩
  | complete => exact ⟨h, by intro m hm; cases hm⟩
  | stop => exact ⟨h, by intro m hm; cases hm⟩

theorem errMsgSet_apply (s : WState) (op : WOp) (h : errMsgSet s)
    (hm : ∀ m : String, op = WOp.fail m → ¬ m = "") :
    errMsgSet (applyOp s op) := by
  cases op with
  | start =>
      simp only [applyOp]
      split
      · exact h
      · intro hst; exact absurd hst (by simp)
  | complete =>
      simp only [applyOp]
      split
      · exact h
      · intro hst; exact absurd hst (by simp)
  | fail m =>
      simp only [applyOp]
      split
      · exact h
      · intro _; exact hm m rfl
  | stop =>
      simp only [applyOp]
      split
      · intro _
        show ¬ "Analysis stopped by user" = ""
        simp
      · exact h

theorem noStopInv_apply (s : WState) (op : WOp) (hop : ¬ op = WOp.stop)
    (h : noStopInv s) (hm : ∀ m : String, op = WOp.fail m → ¬ m = "") :
    noStopInv (applyOp s op) := by
  obtain ⟨h1, h2, h3⟩ := h
  cases op with
  | start =>
      simp only [applyOp]
      split
      · exact ⟨h1, h2, h3⟩
      · next hrun =>
          have hzero : s.inFlight = 0 := by
            by_contra hnz
            exact hrun (h2 hnz).1
          refine ⟨by simp, by simp, ?_⟩
          show s.inFlight + 1 ≤ 1
          omega
  | complete =>
      simp only [applyOp]
      split
      · exact ⟨h1, h2, h3⟩
      · next hnz =>
          have hmsg : s.errorMessage = "" := (h2 hnz).2
          refine ⟨by simp [hmsg], ?_, ?_⟩
          · intro hh
            exfalso
            apply hh
            show s.inFlight - 1 = 0
            omega
          · show s.inFlight - 1 ≤ 1
            omega
  | fail m =>
      simp only [applyOp]
      split
      · exact ⟨h1, h2, h3⟩
      · next hnz =>
          have hm2 : ¬ m = "" := hm m rfl
          refine ⟨by simp [hm2], ?_, ?_⟩
          · intro hh
            exfalso
            apply hh
            show s.inFlight - 1 = 0
            omega
          · show s.inFlight - 1 ≤ 1
            omega
  | stop => exact absurd rfl hop

theorem errMsgSet_run :
    ∀ (ops : List WOp) (s : WState), failMsgsOK ops = true → errMsgSet s →
      errMsgSet (ops.foldl applyOp s)
  | [], _, _, h => h
  | op :: t, s, hok, h => by
      obtain ⟨hok2, hm⟩ := failMsgsOK_cons op t hok
      exact errMsgSet_run t (applyOp s op) hok2 (errMsgSet_apply s op h hm)

theorem noStopInv_run :
    ∀ (ops : List WOp) (s : WState), failMsgsOK ops = true → WOp.stop ∉ ops →
      noStopInv s → noStopInv (ops.foldl applyOp s)
  | [], _, _, _, h => h
  | op :: t, s, hok, hstop, h => by
      obtain ⟨hok2, hm⟩ := failMsgsOK_cons op t hok
      have hop : ¬ op = WOp.stop := by
        intro he
        subst he
        exact hstop (List.mem_cons_self _ _)
      have hstop2 : WOp.stop ∉ t := fun ht => hstop (List.mem_cons_of_mem op ht)
      exact noStopInv_run t (applyOp s op) hok2 hstop2 (noStopInv_apply s op hop h hm)

/-- Claim C2, counterexample: start, then stop, then the completion of
the still-running crawl yield status done together with the retained stop
message — a state violating the claimed equivalence between a non-empty
error message and the error status. -/
theorem c2_counterexample :
    (runOps [WOp.start, WOp.stop, WOp.complete]).status = WStatus.done ∧
    (runOps [WOp.start, WOp.stop, WOp.complete]).errorMessage =
      "Analysis stopped by user" ∧
    ¬ ((runOps [WOp.start, WOp.stop, WOp.complete]).status = WStatus.error ↔
        ¬ (runOps [WOp.start, WOp.stop, WOp.complete]).errorMessage = "") := by
  decide

/-- Claim C2, amended: in every reachable state (with the code's
non-empty failure messages) an error status implies a non-empty error
message, and for operation sequences containing no stop the two are
equivalent; a crawl completing after a stop breaks the equivalence by
leaving the stop's message on a done target. -/
theorem c2_amended (ops : List WOp) (hmsg : failMsgsOK ops = true) :
    ((runOps ops).status = WStatus.error → ¬ (runOps ops).errorMessage = "") ∧
    (WOp.stop ∉ ops →
      ((runOps ops).status = WStatus.error ↔ ¬ (runOps ops).errorMessage = "")) := by
  constructor
  · exact errMsgSet_run ops initWState hmsg (by intro hq; exact absurd hq (by simp [initWState]))
  · intro hstop
    exact (noStopInv_run ops initWState hmsg hstop
      ⟨by simp [initWState], by simp [initWState], by simp [initWState]⟩).1

/-- Claim C2, amended, witness: a start followed by a crawl failure with
a non-empty message satisfies the equivalence. -/
theorem c2_amended_witness :
    failMsgsOK [WOp.start, WOp.fail "fetch failed"] = true ∧
    ((runOps [WOp.start, WOp.fail "fetch failed"]).status = WStatus.error ↔
      ¬ (runOps [WOp.start, WOp.fail "fetch failed"]).errorMessage = "") :=
  ⟨by decide, (c2_amended [WOp.start, WOp.fail "fetch failed"] (by decide)).2 (by decide)⟩

/-- Claim C8, counterexample: target 1 exists, is not running, yet a bulk
start by user 1 launches nothing because the target belongs to user 2 —
the bulk loop skips more than the claimed not-found and already-running
cases. -/
theorem c8_counterexample :
    bulkStartAnalysis dbOtherUser 1 [1] = [] ∧
    claimBulkLaunches dbOtherUser [1] = [1] ∧
    ¬ bulkStartAnalysis dbOtherUser 1 [1] = claimBulkLaunches dbOtherUser [1] := by
  decide

/-- Claim C8, amended: a start on a running target is rejected with a
conflict and launches no job, and a bulk start launches a job exactly for
the targets that are found, owned by the calling user, not already
running, and have a parseable URL — silently skipping the rest. -/
theorem c8_amended :
    (∀ (db : Nat → Option WTarget) (uid id : Nat) (w : WTarget),
      db id = some w → w.userID = uid → w.status = WStatus.running →
      startAnalysis db uid id = StartOutcome.conflict) ∧
    (∀ (db : Nat → Option WTarget) (uid : Nat) (ids : List Nat),
      bulkStartAnalysis db uid ids = ids.filter fun id =>
        match db id with
        | none => false
        | some w =>
            if w.userID = uid then
              if w.status = WStatus.running then false else (parseURL w.url).isSome
            else false) := by
  constructor
  · intro db uid id w hdb huid hrun
    unfold startAnalysis
    rw [hdb]
    simp [huid, hrun]
  · intro db uid ids
    induction ids with
    | nil => rfl
    | cons id rest ih =>
        rw [List.filter_cons]
        cases hdb : db id with
        | none =>
            simp only [bulkStartAnalysis, hdb]
            simpa [hdb] using ih
        | some w =>
            by_cases hu : w.userID = uid
            · by_cases hr : w.status = WStatus.running
              · simp only [bulkStartAnalysis, hdb]
                simp [hu, hr, ih]
              · cases hp : (parseURL w.url).isSome with
                | true =>
                    simp only [bulkStartAnalysis, hdb]
                    simp [hu, hr, hp, ih]
                | false =>
                    simp only [bulkStartAnalysis, hdb]
                    simp [hu, hr, hp, ih]
            · simp only [bulkStartAnalysis, hdb]
              simp [hu, ih]

/-- Claim C8, amended, witness: the running target of the one-row
database is rejected with a conflict. -/
theorem c8_amended_witness :
    dbRunning 1 = some { userID := 1, url := "https://a.com", status := WStatus.running } ∧
    startAnalysis dbRunning 1 1 = StartOutcome.conflict :=
  ⟨by decide, c8_amended.1 dbRunning 1 1
    { userID := 1, url := "https://a.com", status := WStatus.running } (by decide) rfl rfl⟩

/-! ## Helper lemmas: the probe semaphore -/

theorem inFlightProbes_replicate_waiting (n : Nat) :
    inFlightProbes (List.replicate n ProbePhase.waiting) = 0 := by
  rw [inFlightProbes, List.countP_eq_zero]
  intro a ha
  rw [List.eq_of_mem_replicate ha]
  simp

theorem semStep_bound {s t : List ProbePhase} (hstep : SemStep s t)
    (hs : inFlightProbes s ≤ 10) : inFlightProbes t ≤ 10 := by
  cases hstep with
  | acquire pre post hlt =>
      simp [inFlightProbes, List.countP_append, List.countP_cons] at hlt hs ⊢
      omega
  | release pre post =>
      simp [inFlightProbes, List.countP_append, List.countP_cons] at hs ⊢
      omega

/-- Claim C9: in every state of the probe pool reachable from any number
of waiting probe goroutines, at most 10 probes hold a semaphore slot
simultaneously, and after any further scheduler step the bound still
holds — an eleventh probe can begin only once one of the admitted probes
has completed and released its slot. -/
theorem c9_probe_bound (n : Nat) (gs : List ProbePhase)
    (h : SemReachable (List.replicate n ProbePhase.waiting) gs) :
    inFlightProbes gs ≤ 10 ∧
      ∀ gs2 : List ProbePhase, SemStep gs gs2 → inFlightProbes gs2 ≤ 10 := by
  have hb : inFlightProbes gs ≤ 10 := by
    induction h with
    | refl =>
        rw [inFlightProbes_replicate_waiting]
        omega
    | step hreach hstep ih => exact semStep_bound hstep ih
  exact ⟨hb, fun gs2 hstep => semStep_bound hstep hb⟩

/-- Claim C9, witness: with twelve links the initial all-waiting pool is
reachable and satisfies the bound. -/
theorem c9_probe_bound_witness :
    inFlightProbes (List.replicate 12 ProbePhase.waiting) ≤ 10 :=
  (c9_probe_bound 12 (List.replicate 12 ProbePhase.waiting) SemReachable.refl).1
